import Mathlib

/-!
# Verification of the Laneful webhook subsystem (`laneful/webhooks.py`)

A shallow embedding of the webhook verification and dispatch subsystem:
`WebhookHandler.verify_signature`, `WebhookEvent.from_dict`,
`WebhookHandler.register_handler` / `on`, `WebhookHandler.process_webhook`
and `WebhookHandler.handle_event`, together with the pieces of the Python
standard library they call (`hmac`/`hashlib` HMAC-SHA256, `hmac.compare_digest`,
`json.loads`, `dict` operations, UTF-8 encoding).

Python strings are embedded as `List Char` (sequences of Unicode scalar
values), bytes as `List Nat` (each value taken mod 256 where it is consumed),
and 32-bit machine words as `Nat` reduced mod `2^32` at every operation.
Fallible Python code returns `Except PyErr _`.
-/

namespace Laneful

/-- Python exceptions that the embedded code can raise. -/
inductive PyErr where
  | valueError (msg : List Char)
  | typeError (msg : List Char)
  | attributeError (msg : List Char)
deriving DecidableEq

/-- Reduce a `Nat` to a 32-bit machine word, as the Python-level C code does. -/
def w32 (n : Nat) : Nat := n % 4294967296

/-- Right rotation of a 32-bit word (FIPS 180-4). -/
def rotr32 (x n : Nat) : Nat := w32 ((x >>> n) ||| (x <<< (32 - n)))

/-- `Ch(x,y,z)` of SHA-256. -/
def sha256Ch (x y z : Nat) : Nat := (x &&& y) ^^^ ((x ^^^ 4294967295) &&& z)

/-- `Maj(x,y,z)` of SHA-256. -/
def sha256Maj (x y z : Nat) : Nat := (x &&& y) ^^^ (x &&& z) ^^^ (y &&& z)

/-- `Σ₀` of SHA-256. -/
def bsig0 (x : Nat) : Nat := rotr32 x 2 ^^^ rotr32 x 13 ^^^ rotr32 x 22

/-- `Σ₁` of SHA-256. -/
def bsig1 (x : Nat) : Nat := rotr32 x 6 ^^^ rotr32 x 11 ^^^ rotr32 x 25

/-- `σ₀` of SHA-256. -/
def ssig0 (x : Nat) : Nat := rotr32 x 7 ^^^ rotr32 x 18 ^^^ (x >>> 3)

/-- `σ₁` of SHA-256. -/
def ssig1 (x : Nat) : Nat := rotr32 x 17 ^^^ rotr32 x 19 ^^^ (x >>> 10)

/-- The 64 SHA-256 round constants `K₀…K₆₃` (FIPS 180-4 §4.2.2). -/
def sha256K : List Nat :=
  [1116352408, 1899447441, 3049323471, 3921009573,
   961987163, 1508970993, 2453635748, 2870763221,
   3624381080, 310598401, 607225278, 1426881987,
   1925078388, 2162078206, 2614888103, 3248222580,
   3835390401, 4022224774, 264347078, 604807628,
   770255983, 1249150122, 1555081692, 1996064986,
   2554220882, 2821834349, 2952996808, 3210313671,
   3336571891, 3584528711, 113926993, 338241895,
   666307205, 773529912, 1294757372, 1396182291,
   1695183700, 1986661051, 2177026350, 2456956037,
   2730485921, 2820302411, 3259730800, 3345764771,
   3516065817, 3600352804, 4094571909, 275423344,
   430227734, 506948616, 659060556, 883997877,
   958139571, 1322822218, 1537002063, 1747873779,
   1955562222, 2024104815, 2227730452, 2361852424,
   2428436474, 2756734187, 3204031479, 3329325298]

/-- The running 8-word SHA-256 hash state. -/
structure Sha256State where
  a : Nat
  b : Nat
  c : Nat
  d : Nat
  e : Nat
  f : Nat
  g : Nat
  h : Nat
deriving DecidableEq

/-- The SHA-256 initial hash value `H⁽⁰⁾` (FIPS 180-4 §5.3.3). -/
def sha256Init : Sha256State :=
  ⟨1779033703, 3144134277, 1013904242, 2773480762, 1359893119, 2600822924, 528734635, 1541459225⟩

/-- Assemble big-endian 32-bit words from a byte list (bytes taken mod 256). -/
def bytesToWords : List Nat → List Nat
  | a :: b :: c :: d :: rest =>
      w32 (((a % 256) <<< 24) ||| ((b % 256) <<< 16) ||| ((c % 256) <<< 8) ||| (d % 256))
        :: bytesToWords rest
  | _ => []

/-- Extend the 16 message-schedule words to 64, keeping the schedule reversed
(head is the most recent word) so that `W[t-2]`, `W[t-7]`, `W[t-15]`, `W[t-16]`
are positions 1, 6, 14, 15. -/
def sha256ExtendRev (rev : List Nat) : Nat → List Nat
  | 0 => rev
  | n + 1 =>
      sha256ExtendRev
        (w32 (ssig1 (rev.getD 1 0) + rev.getD 6 0 + ssig0 (rev.getD 14 0) + rev.getD 15 0) :: rev)
        n

/-- One SHA-256 round; `kw` is `K[t] + W[t]` already reduced mod `2^32`. -/
def sha256Round (st : Sha256State) (kw : Nat) : Sha256State :=
  let t1 := w32 (st.h + bsig1 st.e + sha256Ch st.e st.f st.g + kw)
  let t2 := w32 (bsig0 st.a + sha256Maj st.a st.b st.c)
  ⟨w32 (t1 + t2), st.a, st.b, st.c, w32 (st.d + t1), st.e, st.f, st.g⟩

/-- The SHA-256 compression function on one 64-byte block. -/
def sha256Compress (st : Sha256State) (block : List Nat) : Sha256State :=
  let w16 := bytesToWords block
  let ws := (sha256ExtendRev w16.reverse 48).reverse
  let fin := (List.zipWith (fun k w => w32 (k + w)) sha256K ws).foldl sha256Round st
  ⟨w32 (st.a + fin.a), w32 (st.b + fin.b), w32 (st.c + fin.c), w32 (st.d + fin.d),
   w32 (st.e + fin.e), w32 (st.f + fin.f), w32 (st.g + fin.g), w32 (st.h + fin.h)⟩

/-- Big-endian 8-byte encoding of a 64-bit length field. -/
def be64 (n : Nat) : List Nat :=
  [(n >>> 56) % 256, (n >>> 48) % 256, (n >>> 40) % 256, (n >>> 32) % 256,
   (n >>> 24) % 256, (n >>> 16) % 256, (n >>> 8) % 256, n % 256]

/-- Big-endian 4-byte encoding of a 32-bit word. -/
def be32 (n : Nat) : List Nat := [(n >>> 24) % 256, (n >>> 16) % 256, (n >>> 8) % 256, n % 256]

/-- SHA-256 padding (FIPS 180-4 §5.1.1): `0x80`, zeros, 64-bit big-endian bit length. -/
def sha256Pad (msg : List Nat) : List Nat :=
  msg ++ 0x80 :: List.replicate ((119 - msg.length % 64) % 64) 0 ++ be64 (msg.length * 8)

/-- Split a byte list into 64-byte blocks; `fuel` bounds the recursion and is
instantiated with the list length. -/
def chunks64 : Nat → List Nat → List (List Nat)
  | 0, _ => []
  | _, [] => []
  | n + 1, l => l.take 64 :: chunks64 n (l.drop 64)

/-- Serialize the final hash state to the 32-byte digest. -/
def sha256StateBytes (st : Sha256State) : List Nat :=
  be32 st.a ++ be32 st.b ++ be32 st.c ++ be32 st.d ++ be32 st.e ++ be32 st.f ++ be32 st.g ++ be32 st.h

/-- SHA-256 of a byte string, as `hashlib.sha256(...).digest()` computes it. -/
def sha256 (msg : List Nat) : List Nat :=
  let padded := sha256Pad msg
  sha256StateBytes ((chunks64 padded.length padded).foldl sha256Compress sha256Init)

/-- HMAC-SHA256 (FIPS 198-1, block size 64) as `hmac.new(key, msg, hashlib.sha256).digest()`. -/
def hmacSha256 (key msg : List Nat) : List Nat :=
  let k0 := if 64 < key.length then sha256 key else key
  let kpad := k0 ++ List.replicate (64 - k0.length) 0
  let ipad := kpad.map (fun b => (b % 256) ^^^ 0x36)
  let opad := kpad.map (fun b => (b % 256) ^^^ 0x5c)
  sha256 (opad ++ sha256 (ipad ++ msg))

/-- The sixteen lowercase hexadecimal digit characters. -/
def hexDigits : List Char := "0123456789abcdef".toList

/-- Render a byte string as lowercase hexadecimal characters, as `.hexdigest()` does. -/
def toHexChars : List Nat → List Char
  | [] => []
  | b :: bs => hexDigits.getD ((b >>> 4) % 16) '0' :: hexDigits.getD (b % 16) '0' :: toHexChars bs

/-- UTF-8 encoding of one Unicode scalar value, as Python `str.encode("utf-8")`. -/
def utf8EncodeChar (c : Char) : List Nat :=
  let n := c.toNat
  if n < 0x80 then [n]
  else if n < 0x800 then [0xC0 ||| (n >>> 6), 0x80 ||| (n &&& 0x3F)]
  else if n < 0x10000 then
    [0xE0 ||| (n >>> 12), 0x80 ||| ((n >>> 6) &&& 0x3F), 0x80 ||| (n &&& 0x3F)]
  else
    [0xF0 ||| (n >>> 18), 0x80 ||| ((n >>> 12) &&& 0x3F), 0x80 ||| ((n >>> 6) &&& 0x3F),
     0x80 ||| (n &&& 0x3F)]

/-- UTF-8 encoding of a Python string (`payload.encode("utf-8")`). -/
def utf8Encode (s : List Char) : List Nat := s.flatMap utf8EncodeChar

/-- A value that is either a Python `str` or a Python `bytes`, the type of the
`payload` argument of `verify_signature`. -/
inductive PyBytesOrStr where
  | pstr (s : List Char)
  | pbytes (b : List Nat)

/-- The byte sequence verify_signature hashes: a `str` payload is UTF-8 encoded,
a `bytes` payload is used as is (lines 88-89 of `webhooks.py`). -/
def payloadToBytes : PyBytesOrStr → List Nat
  | .pstr s => utf8Encode s
  | .pbytes b => b

/-- True when every character of the string is ASCII. -/
def isAsciiStr (s : List Char) : Bool := s.all (fun c => c.toNat < 128)

/-- `hmac.compare_digest` on two `str` arguments: CPython accepts only
ASCII-only strings (raising `TypeError` otherwise, after checking both
operands and before any comparison) and then compares for equality;
the timing behaviour of the comparison is outside this model. -/
def compare_digest (a b : List Char) : Except PyErr Bool :=
  if isAsciiStr a && isAsciiStr b then .ok (a == b)
  else .error (.typeError "comparing strings with non-ASCII characters is not supported".toList)

/-- The header marker `"sha256="` stripped by `verify_signature`. -/
def hdrMarker : List Char := "sha256=".toList

/-- The signature value actually compared: the `"sha256="` marker is stripped
when present (lines 92-93 of `webhooks.py`). -/
def stripHdr (signature : List Char) : List Char :=
  if hdrMarker.isPrefixOf signature then signature.drop 7 else signature

/-- The expected signature: lowercase hex of HMAC-SHA256 of the payload bytes
under the UTF-8 encoded secret (lines 96-100 of `webhooks.py`). -/
def expectedSignature (secret : List Char) (payload : PyBytesOrStr) : List Char :=
  toHexChars (hmacSha256 (utf8Encode secret) (payloadToBytes payload))

/-- `WebhookHandler.verify_signature` (lines 74-103 of `webhooks.py`).
The configured `webhook_secret` is `Option (List Char)` (`None` or a `str`);
`if not self.webhook_secret` skips verification when the secret is `None`
or the empty string. -/
def verify_signature (webhook_secret : Option (List Char)) (payload : PyBytesOrStr)
    (signature : List Char) : Except PyErr Bool :=
  match webhook_secret with
  | none => .ok true
  | some secret =>
      if secret.isEmpty then .ok true
      else compare_digest (expectedSignature secret payload) (stripHdr signature)

/-- Python values produced by decoding JSON. Numbers are modelled as integers;
non-integral numbers are outside this model (no claim depends on them). -/
inductive Json where
  | null
  | bool (b : Bool)
  | num (n : Int)
  | str (s : List Char)
  | arr (elems : List Json)
  | obj (fields : List (List Char × Json))

/-- Python `dict` lookup restricted to string keys (`d[k]` / `d.get(k)`):
the first (unique) matching key wins. -/
def dictLookup {κ : Type} (d : List (List Char × κ)) (k : List Char) : Option κ :=
  match d with
  | [] => none
  | (k₂, v) :: rest => if k₂ == k then some v else dictLookup rest k

/-- Python `dict` assignment `d[k] = v`: replace in place when the key is
present, append otherwise. -/
def dictSet {κ : Type} (d : List (List Char × κ)) (k : List Char) (v : κ) :
    List (List Char × κ) :=
  match d with
  | [] => [(k, v)]
  | (k₂, v₂) :: rest => if k₂ == k then (k₂, v) :: rest else (k₂, v₂) :: dictSet rest k v

/-- Python `dict.get(key, default)` on a string-keyed mapping: total, never raises. -/
def dictGetD (fields : List (List Char × Json)) (k : List Char) (default : Json) : Json :=
  (dictLookup fields k).getD default

/-- The Python class name of a decoded JSON value, used in `AttributeError` messages. -/
def pyTypeName : Json → List Char
  | .null => "NoneType".toList
  | .bool _ => "bool".toList
  | .num _ => "int".toList
  | .str _ => "str".toList
  | .arr _ => "list".toList
  | .obj _ => "dict".toList

/-- The `WebhookEvent` dataclass (lines 26-34 of `webhooks.py`). Python performs
no runtime type check on dataclass fields, so each field holds whatever value
`dict.get` returned. -/
structure WebhookEvent where
  event_type : Json
  message_id : Json
  email : Json
  timestamp : Json
  data : Json

/-- The event `WebhookEvent.from_dict` builds from a mapping: five `dict.get`
calls with defaults (lines 39-45 of `webhooks.py`). -/
def eventOfFields (fields : List (List Char × Json)) : WebhookEvent :=
  { event_type := dictGetD fields "event_type".toList (.str [])
    message_id := dictGetD fields "message_id".toList (.str [])
    email := dictGetD fields "email".toList (.str [])
    timestamp := dictGetD fields "timestamp".toList (.num 0)
    data := dictGetD fields "data".toList (.obj []) }

/-- `WebhookEvent.from_dict` (lines 36-45 of `webhooks.py`). `.get` exists only
on mappings; on any other decoded value the attribute access raises
`AttributeError`. -/
def webhookEventFromDict (data : Json) : Except PyErr WebhookEvent :=
  match data with
  | .obj fields => .ok (eventOfFields fields)
  | other => .error (.attributeError (pyTypeName other ++ " object has no attribute get".toList))

/-- The four JSON whitespace characters (space, tab, line feed, carriage return). -/
def isJsonWs (c : Char) : Bool :=
  c.toNat == 32 || c.toNat == 9 || c.toNat == 10 || c.toNat == 13

/-- Skip JSON whitespace. -/
def skipWs : List Char → List Char
  | c :: rest => if isJsonWs c then skipWs rest else c :: rest
  | [] => []

/-- One decimal digit. -/
def isDigitCh (c : Char) : Bool := '0' ≤ c && c ≤ '9'

/-- Read a run of decimal digits, returning their value and the rest. -/
def readDigits (acc : Nat) : List Char → Nat × List Char × Nat
  | c :: rest =>
      if isDigitCh c then
        let r := readDigits (acc * 10 + (c.toNat - '0'.toNat)) rest
        (r.1, r.2.1, r.2.2 + 1)
      else (acc, c :: rest, 0)
  | [] => (acc, [], 0)

/-- Read the body of a JSON string literal after the opening quote, with the
common escapes; unsupported escapes are decode errors. -/
def readString : Nat → List Char → Except (List Char) (List Char × List Char)
  | 0, _ => .error "Unterminated string".toList
  | _, [] => .error "Unterminated string".toList
  | fuel + 1, c :: rest =>
      if c == '"' then .ok ([], rest)
      else if c == '\\' then
        match rest with
        | [] => .error "Unterminated string".toList
        | e :: rest₂ =>
            let esc : Except (List Char) Char :=
              if e == '"' then .ok '"'
              else if e == '\\' then .ok '\\'
              else if e == '/' then .ok '/'
              else if e == 'n' then .ok '\n'
              else if e == 't' then .ok '\t'
              else if e == 'r' then .ok '\r'
              else .error "Invalid escape".toList
            match esc with
            | .error m => .error m
            | .ok ch =>
                match readString fuel rest₂ with
                | .error m => .error m
                | .ok (s, rem) => .ok (ch :: s, rem)
      else
        match readString fuel rest with
        | .error m => .error m
        | .ok (s, rem) => .ok (c :: s, rem)

mutual

/-- Recursive-descent JSON value parser (the grammar `json.loads` accepts);
`fuel` bounds recursion and is instantiated large enough at entry. -/
def parseJsonValue : Nat → List Char → Except (List Char) (Json × List Char)
  | 0, _ => .error "Expecting value".toList
  | _, [] => .error "Expecting value".toList
  | fuel + 1, c :: rest =>
      if c == '{' then parseJsonMembers fuel (skipWs rest) []
      else if c == '[' then parseJsonItems fuel (skipWs rest) []
      else if c == '"' then
        match readString (rest.length + 1) rest with
        | .error m => .error m
        | .ok (s, rem) => .ok (.str s, rem)
      else if c == 't' then
        if "rue".toList.isPrefixOf rest then .ok (.bool true, rest.drop 3)
        else .error "Expecting value".toList
      else if c == 'f' then
        if "alse".toList.isPrefixOf rest then .ok (.bool false, rest.drop 4)
        else .error "Expecting value".toList
      else if c == 'n' then
        if "ull".toList.isPrefixOf rest then .ok (.null, rest.drop 3)
        else .error "Expecting value".toList
      else if c == '-' then
        match rest with
        | d :: _ =>
            if isDigitCh d then
              let r := readDigits 0 rest
              .ok (.num (-(r.1 : Int)), r.2.1)
            else .error "Expecting value".toList
        | [] => .error "Expecting value".toList
      else if isDigitCh c then
        let r := readDigits (c.toNat - '0'.toNat) rest
        .ok (.num (r.1 : Int), r.2.1)
      else .error "Expecting value".toList

/-- Parse the members of a JSON object after `{`; duplicate keys follow
Python's last-value-wins `dict` semantics. -/
def parseJsonMembers : Nat → List Char → List (List Char × Json) →
    Except (List Char) (Json × List Char)
  | 0, _, _ => .error "Expecting property name".toList
  | _, [], _ => .error "Expecting property name".toList
  | fuel + 1, c :: rest, acc =>
      if c == '}' then .ok (.obj acc, rest)
      else if c == '"' then
        match readString (rest.length + 1) rest with
        | .error m => .error m
        | .ok (key, rem) =>
            match skipWs rem with
            | ':' :: rem₂ =>
                match parseJsonValue fuel (skipWs rem₂) with
                | .error m => .error m
                | .ok (v, rem₃) =>
                    match skipWs rem₃ with
                    | ',' :: rem₄ => parseJsonMembers fuel (skipWs rem₄) (dictSet acc key v)
                    | '}' :: rem₄ => .ok (.obj (dictSet acc key v), rem₄)
                    | _ => .error "Expecting delimiter".toList
            | _ => .error "Expecting colon delimiter".toList
      else .error "Expecting property name".toList

/-- Parse the items of a JSON array after `[`. -/
def parseJsonItems : Nat → List Char → List Json → Except (List Char) (Json × List Char)
  | 0, _, _ => .error "Expecting value".toList
  | _, [], _ => .error "Expecting value".toList
  | fuel + 1, c :: rest, acc =>
      if c == ']' then .ok (.arr acc.reverse, rest)
      else
        match parseJsonValue fuel (c :: rest) with
        | .error m => .error m
        | .ok (v, rem) =>
            match skipWs rem with
            | ',' :: rem₂ => parseJsonItems fuel (skipWs rem₂) (v :: acc)
            | ']' :: rem₂ => .ok (.arr (v :: acc).reverse, rem₂)
            | _ => .error "Expecting delimiter".toList

end

/-- `json.loads` on a string: parse one JSON document and reject trailing
content. -/
def json_loads (s : List Char) : Except (List Char) Json :=
  match parseJsonValue (2 * s.length + 4) (skipWs s) with
  | .error m => .error m
  | .ok (j, rest) => if (skipWs rest).isEmpty then .ok j else .error "Extra data".toList

/-- The registered-callback type: a Python callable taking the event; it may
raise. -/
def Callback : Type := WebhookEvent → Except PyErr Unit

/-- The state a `WebhookHandler` instance owns (lines 64-72 of `webhooks.py`):
the optional secret and the handler registry `self._handlers`, a `dict`
from event-type string to callback. The callback type is a parameter so
registry facts can be stated for any callback type. -/
structure WebhookHandlerState (κ : Type) where
  webhook_secret : Option (List Char)
  handlers : List (List Char × κ)

/-- `WebhookHandler.register_handler` (lines 120-128): `self._handlers[event_type] = handler`. -/
def register_handler {κ : Type} (h : WebhookHandlerState κ) (event_type : List Char) (cb : κ) :
    WebhookHandlerState κ :=
  { h with handlers := dictSet h.handlers event_type cb }

/-- The decorator returned by `WebhookHandler.on` (lines 105-118): it stores the
callback in the same table and returns the function unchanged. -/
def onDecorator {κ : Type} (h : WebhookHandlerState κ) (event_type : List Char) (cb : κ) :
    WebhookHandlerState κ × κ :=
  ({ h with handlers := dictSet h.handlers event_type cb }, cb)

/-- Membership test `event.event_type in self._handlers` with the key being an
arbitrary decoded value: string keys are looked up, unhashable values (`list`,
`dict`) raise `TypeError`, other hashable values never equal a `str` key. -/
def dictContainsJson {κ : Type} (d : List (List Char × κ)) (k : Json) :
    Except PyErr (Option κ) :=
  match k with
  | .str s => .ok (dictLookup d s)
  | .arr _ => .error (.typeError "unhashable type: list".toList)
  | .obj _ => .error (.typeError "unhashable type: dict".toList)
  | _ => .ok none

/-- The `payload` argument of `process_webhook`: a JSON string or an
already-structured mapping (`Union[str, Dict[str, Any]]`). -/
inductive WebhookPayload where
  | pstr (s : List Char)
  | pobj (fields : List (List Char × Json))

/-- Lines 149-153 of `process_webhook`: build the event from the decoded
`data` and call the registered handler, if any. The result carries the
(unchanged) handler state — the method assigns to no attribute — together
with the list of callback invocations performed (the single call at line
153, recorded as the callback and the event passed to it); a raised error
is the `Except` error. -/
def dispatchDecoded (h : WebhookHandlerState Callback) (data : Json) :
    Except PyErr (WebhookHandlerState Callback × List (Callback × WebhookEvent)) :=
  match webhookEventFromDict data with
  | .error e => .error e
  | .ok event =>
      match dictContainsJson h.handlers event.event_type with
      | .error e => .error e
      | .ok none => .ok (h, [])
      | .ok (some cb) =>
          match cb event with
          | .error e => .error e
          | .ok _ => .ok (h, [(cb, event)])

/-- `WebhookHandler.process_webhook` (lines 130-153): decode a string payload
(wrapping a `json.JSONDecodeError` in `ValueError("Invalid JSON payload: ...")`),
take a mapping payload as is, then build the event and dispatch. -/
def process_webhook (h : WebhookHandlerState Callback) (payload : WebhookPayload) :
    Except PyErr (WebhookHandlerState Callback × List (Callback × WebhookEvent)) :=
  match payload with
  | .pstr s =>
      match json_loads s with
      | .ok j => dispatchDecoded h j
      | .error e => .error (.valueError ("Invalid JSON payload: ".toList ++ e))
  | .pobj fields => dispatchDecoded h (.obj fields)

/-- `WebhookHandler.handle_event` (lines 155-164), with the same
state-and-invocations result convention as `process_webhook`. -/
def handle_event (h : WebhookHandlerState Callback) (event_type : List Char)
    (event : WebhookEvent) :
    Except PyErr (WebhookHandlerState Callback × List (Callback × WebhookEvent)) :=
  match dictLookup h.handlers event_type with
  | some cb =>
      match cb event with
      | .error e => .error e
      | .ok _ => .ok (h, [(cb, event)])
  | none => .ok (h, [])

/-- A callback that succeeds on every event (a registered handler that returns normally). -/
def cbOk : Callback := fun _ => .ok ()

/-- A callback that raises `ValueError` on every event (a handler-level failure). -/
def cbBoom : Callback := fun _ => .error (.valueError "boom".toList)

/-- The all-defaults event, `WebhookEvent.from_dict({})`. -/
def defaultEvent : WebhookEvent := ⟨.str [], .str [], .str [], .num 0, .obj []⟩

/-! ## Lemmas about the embedded code -/

theorem mem_hexDigits_getD (n : Nat) : hexDigits.getD n '0' ∈ hexDigits := by
  by_cases h : n < hexDigits.length
  · rw [List.getD_eq_getElem _ _ h]
    exact List.getElem_mem h
  · rw [List.getD_eq_default _ _ (Nat.le_of_not_lt h)]
    decide

theorem mem_hexDigits_of_mem_toHexChars {l : List Nat} {c : Char}
    (hc : c ∈ toHexChars l) : c ∈ hexDigits := by
  induction l with
  | nil => simp [toHexChars] at hc
  | cons b bs ih =>
      rcases List.mem_cons.mp hc with h | h
      · exact h ▸ mem_hexDigits_getD _
      · rcases List.mem_cons.mp h with h₂ | h₂
        · exact h₂ ▸ mem_hexDigits_getD _
        · exact ih h₂

theorem hexDigits_ascii : ∀ c ∈ hexDigits, c.toNat < 128 := by decide

theorem isAsciiStr_toHexChars (l : List Nat) : isAsciiStr (toHexChars l) = true := by
  refine List.all_eq_true.mpr fun c hc => ?_
  exact decide_eq_true (hexDigits_ascii c (mem_hexDigits_of_mem_toHexChars hc))

theorem length_toHexChars (l : List Nat) : (toHexChars l).length = 2 * l.length := by
  induction l with
  | nil => rfl
  | cons b bs ih => simp [toHexChars, ih]; omega

theorem length_sha256 (msg : List Nat) : (sha256 msg).length = 32 := by
  simp [sha256, sha256StateBytes, be32]

theorem length_hmacSha256 (key msg : List Nat) : (hmacSha256 key msg).length = 32 := by
  simp [hmacSha256, length_sha256]

theorem length_expectedSignature (secret : List Char) (p : PyBytesOrStr) :
    (expectedSignature secret p).length = 64 := by
  simp [expectedSignature, length_toHexChars, length_hmacSha256]

theorem mem_hexDigits_of_mem_expectedSignature {secret : List Char} {p : PyBytesOrStr} {c : Char}
    (hc : c ∈ expectedSignature secret p) : c ∈ hexDigits :=
  mem_hexDigits_of_mem_toHexChars hc

theorem verify_signature_some (secret : List Char) (hs : secret ≠ []) (p : PyBytesOrStr)
    (sig : List Char) :
    verify_signature (some secret) p sig
      = compare_digest (expectedSignature secret p) (stripHdr sig) := by
  cases secret with
  | nil => exact absurd rfl hs
  | cons a t => rfl

theorem stripHdr_marker_append (d : List Char) : stripHdr (hdrMarker ++ d) = d := by
  have hp : hdrMarker.isPrefixOf (hdrMarker ++ d) = true :=
    List.isPrefixOf_iff_prefix.mpr (List.prefix_append _ _)
  have h7 : (7 : Nat) = hdrMarker.length := rfl
  simp only [stripHdr, hp, if_true, h7, List.drop_left]

theorem hdrMarker_not_prefixOf_hex (d : List Char) (hd : ∀ c ∈ d, c ∈ hexDigits) :
    hdrMarker.isPrefixOf d = false := by
  cases d with
  | nil => decide
  | cons c t =>
      have hc : c ∈ hexDigits := hd c (List.mem_cons_self c t)
      have hcs : ('s' == c) = false := by
        refine beq_eq_false_iff_ne.mpr fun h => ?_
        have : ∀ x ∈ hexDigits, x ≠ 's' := by decide
        exact this c hc h.symm
      have hm : hdrMarker = 's' :: "ha256=".toList := by decide
      rw [hm]
      simp [List.isPrefixOf, hcs]

theorem stripHdr_of_hex (d : List Char) (hd : ∀ c ∈ d, c ∈ hexDigits) : stripHdr d = d := by
  simp [stripHdr, hdrMarker_not_prefixOf_hex d hd]

theorem compare_digest_self (a : List Char) (ha : isAsciiStr a = true) :
    compare_digest a a = .ok true := by
  simp [compare_digest, ha]

theorem compare_digest_of_ne (a b : List Char) (ha : isAsciiStr a = true)
    (hb : isAsciiStr b = true) (hne : a ≠ b) : compare_digest a b = .ok false := by
  simp [compare_digest, ha, hb, beq_eq_false_iff_ne.mpr hne]

theorem hex_flip_ne (c : Char) (hc : c ∈ hexDigits) (b : Nat) (hb : b < 7) :
    Char.ofNat (c.toNat ^^^ 2 ^ b) ≠ c ∧ (Char.ofNat (c.toNat ^^^ 2 ^ b)).toNat < 128 := by
  have hb7 : b ∈ [0, 1, 2, 3, 4, 5, 6] := by interval_cases b <;> decide
  have H : ∀ x ∈ hexDigits, ∀ y ∈ [0, 1, 2, 3, 4, 5, 6],
      Char.ofNat (x.toNat ^^^ 2 ^ y) ≠ x ∧ (Char.ofNat (x.toNat ^^^ 2 ^ y)).toNat < 128 := by
    decide
  exact H c hc b hb7

theorem isAsciiStr_of_forall (s : List Char) (h : ∀ c ∈ s, c.toNat < 128) :
    isAsciiStr s = true :=
  List.all_eq_true.mpr fun c hc => decide_eq_true (h c hc)

theorem isAsciiStr_expectedSignature (secret : List Char) (p : PyBytesOrStr) :
    isAsciiStr (expectedSignature secret p) = true :=
  isAsciiStr_toHexChars _

/-! ## Claim theorems -/

/-- C1: for every payload (string or bytes) and every non-empty secret,
`verify_signature` accepts the canonical signature
`"sha256=" ++ lowercase-hex(HMAC-SHA256(UTF-8(secret), payload-bytes))`,
equally accepts the bare hex form, and rejects any single-bit mutation of a
hex-digest character (position `i`, bit `b`), both with and without the
`"sha256="` marker. -/
theorem verify_signature_canonical_and_bitflip
    (secret : List Char) (payload : PyBytesOrStr) (i b : Nat)
    (hsec : secret ≠ []) (hi : i < 64) (hb : b < 7) :
    verify_signature (some secret) payload (hdrMarker ++ expectedSignature secret payload)
        = .ok true ∧
    verify_signature (some secret) payload (expectedSignature secret payload) = .ok true ∧
    verify_signature (some secret) payload
        (hdrMarker ++ (expectedSignature secret payload).set i
          (Char.ofNat (((expectedSignature secret payload).getD i '0').toNat ^^^ 2 ^ b)))
        = .ok false ∧
    verify_signature (some secret) payload
        ((expectedSignature secret payload).set i
          (Char.ofNat (((expectedSignature secret payload).getD i '0').toNat ^^^ 2 ^ b)))
        = .ok false := by
  have hlen : (expectedSignature secret payload).length = 64 :=
    length_expectedSignature secret payload
  have hi₂ : i < (expectedSignature secret payload).length := by omega
  have hgetD : (expectedSignature secret payload).getD i '0'
      = (expectedSignature secret payload)[i] :=
    List.getD_eq_getElem _ '0' hi₂
  have hmemi : (expectedSignature secret payload)[i] ∈ hexDigits :=
    mem_hexDigits_of_mem_expectedSignature (List.getElem_mem hi₂)
  have hflip := hex_flip_ne _ hmemi b hb
  have hasciiD : isAsciiStr (expectedSignature secret payload) = true :=
    isAsciiStr_expectedSignature secret payload
  set cfl := Char.ofNat (((expectedSignature secret payload).getD i '0').toNat ^^^ 2 ^ b)
    with hcfl
  have hcflNe : cfl ≠ (expectedSignature secret payload)[i] := by
    rw [hcfl, hgetD]; exact hflip.1
  have hcflAscii : cfl.toNat < 128 := by rw [hcfl, hgetD]; exact hflip.2
  set mdig := (expectedSignature secret payload).set i cfl with hmdig
  have hmdigNe : expectedSignature secret payload ≠ mdig := by
    intro h
    have h1 : mdig[i]? = some cfl := by
      rw [hmdig]
      exact List.getElem?_set_self hi₂
    rw [← h, List.getElem?_eq_getElem hi₂] at h1
    exact hcflNe (Option.some.inj h1).symm
  have hmdigAscii : isAsciiStr mdig = true := by
    refine isAsciiStr_of_forall _ fun c hc => ?_
    rcases List.mem_or_eq_of_mem_set hc with h | h
    · exact hexDigits_ascii c (mem_hexDigits_of_mem_expectedSignature h)
    · exact h ▸ hcflAscii
  refine ⟨?_, ?_, ?_, ?_⟩
  · rw [verify_signature_some secret hsec, stripHdr_marker_append]
    exact compare_digest_self _ hasciiD
  · rw [verify_signature_some secret hsec,
      stripHdr_of_hex _ fun c hc => mem_hexDigits_of_mem_expectedSignature hc]
    exact compare_digest_self _ hasciiD
  · rw [verify_signature_some secret hsec, stripHdr_marker_append]
    exact compare_digest_of_ne _ _ hasciiD hmdigAscii hmdigNe
  · rw [verify_signature_some secret hsec]
    by_cases hpre : hdrMarker.isPrefixOf mdig = true
    · have hstrip : stripHdr mdig = mdig.drop 7 := by simp [stripHdr, hpre]
      rw [hstrip]
      have hlenMdig : mdig.length = 64 := by rw [hmdig, List.length_set]; exact hlen
      have hlenDrop : (mdig.drop 7).length = 57 := by rw [List.length_drop, hlenMdig]
      have hne : expectedSignature secret payload ≠ mdig.drop 7 := by
        intro h
        have := congrArg List.length h
        rw [hlen, hlenDrop] at this
        omega
      have hdropAscii : isAsciiStr (mdig.drop 7) = true := by
        refine isAsciiStr_of_forall _ fun c hc => ?_
        have hcmdig : c ∈ mdig := List.mem_of_mem_drop hc
        have := List.all_eq_true.mp hmdigAscii c hcmdig
        exact of_decide_eq_true this
      exact compare_digest_of_ne _ _ hasciiD hdropAscii hne
    · have hstrip : stripHdr mdig = mdig := by
        simp only [stripHdr, if_neg hpre]
      rw [hstrip]
      exact compare_digest_of_ne _ _ hasciiD hmdigAscii hmdigNe

/-- Witness for C1 at secret `"k"`, string payload `"x"`, mutation position 0, bit 0. -/
theorem verify_signature_canonical_and_bitflip_witness :
    verify_signature (some "k".toList) (.pstr "x".toList)
        (hdrMarker ++ expectedSignature "k".toList (.pstr "x".toList)) = .ok true :=
  (verify_signature_canonical_and_bitflip "k".toList (.pstr "x".toList) 0 0
    (by decide) (by decide) (by decide)).1

theorem isAsciiStr_stripHdr (sig : List Char) (h : isAsciiStr sig = true) :
    isAsciiStr (stripHdr sig) = true := by
  unfold stripHdr
  split
  · refine isAsciiStr_of_forall _ fun c hc => ?_
    exact of_decide_eq_true (List.all_eq_true.mp h c (List.mem_of_mem_drop hc))
  · exact h

theorem compare_digest_ascii (a b : List Char) (ha : isAsciiStr a = true)
    (hb : isAsciiStr b = true) : compare_digest a b = .ok (a == b) := by
  simp [compare_digest, ha, hb]

/-- C2 (amended): for every secret, every payload and every ASCII signature
string — malformed or not — `verify_signature` raises nothing and returns a
boolean; with a non-empty secret the boolean is exactly whether the stripped
signature equals the expected hex digest, so a mismatched value yields
`false`. (A non-ASCII signature string does raise: see the counterexample.) -/
theorem verify_signature_ascii_never_raises (secret : Option (List Char)) (p : PyBytesOrStr)
    (sig : List Char) (hsig : isAsciiStr sig = true) :
    (∃ r : Bool, verify_signature secret p sig = .ok r) ∧
    (∀ s, secret = some s → s ≠ [] →
      verify_signature secret p sig = .ok (expectedSignature s p == stripHdr sig)) := by
  cases secret with
  | none => exact ⟨⟨true, rfl⟩, fun s h => by cases h⟩
  | some s =>
      cases s with
      | nil =>
          refine ⟨⟨true, rfl⟩, fun s₂ hs₂ hne => ?_⟩
          exact absurd (Option.some.inj hs₂).symm hne
      | cons a t =>
          have hcons : (a :: t : List Char) ≠ [] := List.cons_ne_nil a t
          have hcomp : verify_signature (some (a :: t)) p sig
              = .ok (expectedSignature (a :: t) p == stripHdr sig) := by
            rw [verify_signature_some _ hcons]
            exact compare_digest_ascii _ _ (isAsciiStr_expectedSignature _ _)
              (isAsciiStr_stripHdr _ hsig)
          refine ⟨⟨_, hcomp⟩, fun s₂ hs₂ _ => ?_⟩
          rw [← Option.some.inj hs₂]
          exact hcomp

/-- Witness for the amended C2 at secret `"k"`, payload `"x"`, malformed
ASCII signature `"bad"`. -/
theorem verify_signature_ascii_never_raises_witness :
    ∃ r : Bool, verify_signature (some "k".toList) (.pstr "x".toList) "bad".toList = .ok r :=
  (verify_signature_ascii_never_raises (some "k".toList) (.pstr "x".toList) "bad".toList
    (by decide)).1

set_option maxRecDepth 100000 in
/-- C2 counterexample: with secret `"s"` and the empty string payload, the
one-character signature `"é"` (code point 233, non-ASCII) makes
`verify_signature` raise `TypeError` from `hmac.compare_digest` instead of
returning `false`. -/
theorem verify_signature_nonascii_raises :
    verify_signature (some "s".toList) (.pstr []) [Char.ofNat 233]
      = .error (.typeError "comparing strings with non-ASCII characters is not supported".toList) := by
  rfl

/-- C4: on a handler constructed with no secret (`None`), `verify_signature`
returns `True` for every payload and every signature string, including empty
ones. -/
theorem verify_signature_no_secret (p : PyBytesOrStr) (sig : List Char) :
    verify_signature none p sig = .ok true := rfl

/-- C10: a handler whose configured secret is the empty string behaves exactly
like one with no secret: `verify_signature` returns `True` for every payload
and signature, computing no HMAC. -/
theorem verify_signature_empty_secret (p : PyBytesOrStr) (sig : List Char) :
    verify_signature (some []) p sig = .ok true ∧
    verify_signature (some []) p sig = verify_signature none p sig := ⟨rfl, rfl⟩

theorem dictLookup_dictSet_self {κ : Type} (d : List (List Char × κ)) (k : List Char) (v : κ) :
    dictLookup (dictSet d k v) k = some v := by
  induction d with
  | nil => simp [dictSet, dictLookup]
  | cons p rest ih =>
      obtain ⟨k₂, v₂⟩ := p
      by_cases h : (k₂ == k) = true
      · simp [dictSet, dictLookup, h]
      · simp only [dictSet, dictLookup, h, Bool.false_eq_true, if_false, if_neg]
        exact ih

theorem process_webhook_pstr_decode_err (h : WebhookHandlerState Callback) {s em : List Char}
    (hj : json_loads s = .error em) :
    process_webhook h (.pstr s) = .error (.valueError ("Invalid JSON payload: ".toList ++ em)) := by
  have hu : process_webhook h (.pstr s)
      = match json_loads s with
        | .ok j => dispatchDecoded h j
        | .error e => .error (.valueError ("Invalid JSON payload: ".toList ++ e)) := rfl
  rw [hu, hj]

theorem process_webhook_pstr_decoded (h : WebhookHandlerState Callback) {s : List Char}
    {j : Json} (hj : json_loads s = .ok j) :
    process_webhook h (.pstr s) = dispatchDecoded h j := by
  have hu : process_webhook h (.pstr s)
      = match json_loads s with
        | .ok j => dispatchDecoded h j
        | .error e => .error (.valueError ("Invalid JSON payload: ".toList ++ e)) := rfl
  rw [hu, hj]

theorem dispatchDecoded_of_fromDict_err (h : WebhookHandlerState Callback) {data : Json}
    {e : PyErr} (hd : webhookEventFromDict data = .error e) :
    dispatchDecoded h data = .error e := by
  unfold dispatchDecoded
  rw [hd]

theorem dispatchDecoded_of_fromDict_ok (h : WebhookHandlerState Callback) {data : Json}
    {event : WebhookEvent} (hd : webhookEventFromDict data = .ok event) :
    dispatchDecoded h data =
      match dictContainsJson h.handlers event.event_type with
      | .error e => .error e
      | .ok none => .ok (h, [])
      | .ok (some cb) =>
          match cb event with
          | .error e => .error e
          | .ok _ => .ok (h, [(cb, event)]) := by
  unfold dispatchDecoded
  rw [hd]

/-- C5: `WebhookEvent.from_dict` never fails on a mapping; every absent field
takes its default (`""` for the three string fields, `0` for the timestamp,
`{}` for the data mapping), and the empty mapping yields the all-defaults
event. -/
theorem webhookEventFromDict_total_defaults (fields : List (List Char × Json)) :
    (∃ ev, webhookEventFromDict (.obj fields) = .ok ev
      ∧ (dictLookup fields "event_type".toList = none → ev.event_type = .str [])
      ∧ (dictLookup fields "message_id".toList = none → ev.message_id = .str [])
      ∧ (dictLookup fields "email".toList = none → ev.email = .str [])
      ∧ (dictLookup fields "timestamp".toList = none → ev.timestamp = .num 0)
      ∧ (dictLookup fields "data".toList = none → ev.data = .obj [])) ∧
    webhookEventFromDict (.obj []) = .ok defaultEvent := by
  refine ⟨⟨eventOfFields fields, rfl, ?_, ?_, ?_, ?_, ?_⟩, rfl⟩
  · intro h
    show (dictLookup fields ("event_type".toList)).getD (Json.str []) = Json.str []
    rw [h]
    rfl
  · intro h
    show (dictLookup fields ("message_id".toList)).getD (Json.str []) = Json.str []
    rw [h]
    rfl
  · intro h
    show (dictLookup fields ("email".toList)).getD (Json.str []) = Json.str []
    rw [h]
    rfl
  · intro h
    show (dictLookup fields ("timestamp".toList)).getD (Json.num 0) = Json.num 0
    rw [h]
    rfl
  · intro h
    show (dictLookup fields ("data".toList)).getD (Json.obj []) = Json.obj []
    rw [h]
    rfl

/-- Witness for C5 at the empty mapping. -/
theorem webhookEventFromDict_total_defaults_witness :
    ∃ ev, webhookEventFromDict (.obj []) = .ok ev ∧ ev.event_type = .str [] := by
  obtain ⟨⟨ev, hok, h₁, -, -, -, -⟩, -⟩ := webhookEventFromDict_total_defaults []
  exact ⟨ev, hok, h₁ rfl⟩

/-- C6: registering `f` then `g` under the same key — through `register_handler`
or the `on` decorator, which writes the same table and hands the function back
— leaves `g` as the sole callback for that key: dispatch through `handle_event`
invokes `g` (propagating its outcome) and never invokes `f`. -/
theorem register_handler_last_wins {κ : Type} (h₀ : WebhookHandlerState κ)
    (hC : WebhookHandlerState Callback) (k : List Char) (f g : κ) (fc gc : Callback)
    (e : WebhookEvent) (hfg : fc ≠ gc) :
    dictLookup (register_handler (register_handler h₀ k f) k g).handlers k = some g ∧
    onDecorator h₀ k f = (register_handler h₀ k f, f) ∧
    (gc e = .ok () →
      handle_event (register_handler (register_handler hC k fc) k gc) k e
        = .ok (register_handler (register_handler hC k fc) k gc, [(gc, e)])) ∧
    (∀ err, gc e = .error err →
      handle_event (register_handler (register_handler hC k fc) k gc) k e = .error err) ∧
    (∀ st calls,
      handle_event (register_handler (register_handler hC k fc) k gc) k e = .ok (st, calls) →
      (fc, e) ∉ calls) := by
  have hlkC : dictLookup (register_handler (register_handler hC k fc) k gc).handlers k
      = some gc := dictLookup_dictSet_self _ k gc
  refine ⟨dictLookup_dictSet_self _ k g, rfl, ?_, ?_, ?_⟩
  · intro hok
    simp [handle_event, hlkC, hok]
  · intro err herr
    simp [handle_event, hlkC, herr]
  · intro st calls hres
    simp only [handle_event, hlkC] at hres
    cases hgc : gc e with
    | error err =>
        rw [hgc] at hres
        exact absurd hres (by simp)
    | ok u =>
        rw [hgc] at hres
        have hcalls : [(gc, e)] = calls := congrArg Prod.snd (Except.ok.inj hres)
        intro hmem
        rw [← hcalls] at hmem
        exact hfg (congrArg Prod.fst (List.mem_singleton.mp hmem))

/-- Witness for C6 with a succeeding first callback and a raising second
callback on a fresh handler. -/
theorem register_handler_last_wins_witness :
    dictLookup (register_handler (register_handler
        (⟨none, []⟩ : WebhookHandlerState Callback) "k".toList cbOk) "k".toList cbBoom).handlers
      "k".toList = some cbBoom :=
  (register_handler_last_wins (⟨none, []⟩ : WebhookHandlerState Callback)
    (⟨none, []⟩ : WebhookHandlerState Callback) "k".toList cbOk cbBoom cbOk cbBoom defaultEvent
    (fun h => by
      have h₂ := congrFun h defaultEvent
      simp [cbOk, cbBoom] at h₂)).1

/-- C7: a well-formed payload whose event type has no registered callback is a
silent no-op: `process_webhook` (on a mapping payload or on a string decoding
to one) and `handle_event` return successfully, invoke nothing, and leave the
handler state — registry and secret — unchanged. -/
theorem process_webhook_no_handler_noop (h : WebhookHandlerState Callback)
    (fields : List (List Char × Json)) (s : List Char) (et : List Char) (e : WebhookEvent)
    (hnone : dictContainsJson h.handlers (eventOfFields fields).event_type
      = .ok (none : Option Callback))
    (hjson : json_loads s = .ok (.obj fields))
    (hlk : dictLookup h.handlers et = none) :
    process_webhook h (.pobj fields) = .ok (h, []) ∧
    process_webhook h (.pstr s) = .ok (h, []) ∧
    handle_event h et e = .ok (h, []) := by
  have hcore : dispatchDecoded h (.obj fields) = .ok (h, []) := by
    rw [dispatchDecoded_of_fromDict_ok h
      (show webhookEventFromDict (.obj fields) = .ok (eventOfFields fields) from rfl), hnone]
  refine ⟨hcore, ?_, ?_⟩
  · rw [process_webhook_pstr_decoded h hjson]
    exact hcore
  · simp [handle_event, hlk]

/-- Witness for C7: handler with a secret and empty registry, payload `"{}"`. -/
theorem process_webhook_no_handler_noop_witness :
    process_webhook (⟨some "s".toList, []⟩ : WebhookHandlerState Callback) (.pstr "{}".toList)
      = .ok ((⟨some "s".toList, []⟩ : WebhookHandlerState Callback), []) :=
  (process_webhook_no_handler_noop (⟨some "s".toList, []⟩ : WebhookHandlerState Callback)
    [] "{}".toList "x".toList defaultEvent (by rfl) (by rfl) (by rfl)).2.1

/-- C8: when the registered callback raises, dispatch — through `handle_event`
or through `process_webhook` on a payload parsing to an event with that event
type — propagates the callback's error to the caller uncaught. -/
theorem callback_error_propagates (h : WebhookHandlerState Callback) (et : List Char)
    (e : WebhookEvent) (cb : Callback) (err : PyErr) (fields : List (List Char × Json))
    (hlk : dictLookup h.handlers et = some cb) (hraise : cb e = .error err) :
    handle_event h et e = .error err ∧
    (webhookEventFromDict (.obj fields) = .ok e → e.event_type = .str et →
      process_webhook h (.pobj fields) = .error err) := by
  constructor
  · simp [handle_event, hlk, hraise]
  · intro hev het
    have hrec : eventOfFields fields = e :=
      Except.ok.inj (show Except.ok (eventOfFields fields) = Except.ok e from hev)
    show dispatchDecoded h (.obj fields) = .error err
    rw [dispatchDecoded_of_fromDict_ok h
      (show webhookEventFromDict (.obj fields) = .ok (eventOfFields fields) from rfl), hrec, het]
    simp [dictContainsJson, hlk, hraise]

/-- Witness for C8: a raising callback registered for `"k"` and a payload with
that event type. -/
theorem callback_error_propagates_witness :
    handle_event (⟨none, [("k".toList, cbBoom)]⟩ : WebhookHandlerState Callback) "k".toList
        (⟨.str "k".toList, .str [], .str [], .num 0, .obj []⟩ : WebhookEvent)
      = .error (.valueError "boom".toList) :=
  (callback_error_propagates (⟨none, [("k".toList, cbBoom)]⟩ : WebhookHandlerState Callback)
    "k".toList (⟨.str "k".toList, .str [], .str [], .num 0, .obj []⟩ : WebhookEvent) cbBoom
    (.valueError "boom".toList) [("event_type".toList, .str "k".toList)]
    (by rfl) (by rfl)).1

/-- C9: `process_webhook` performs no signature verification: two handlers
that differ only in their configured secret (one may have none) behave
identically on every payload — same callback invocations with the same
events, same error if any, and the same (unchanged) registry. -/
theorem process_webhook_ignores_secret (sec₁ sec₂ : Option (List Char))
    (reg : List (List Char × Callback)) (p : WebhookPayload) :
    (process_webhook ⟨sec₁, reg⟩ p).map (fun r => (r.1.handlers, r.2)) =
    (process_webhook ⟨sec₂, reg⟩ p).map (fun r => (r.1.handlers, r.2)) := by
  have hdis : ∀ h₁ h₂ : WebhookHandlerState Callback, h₁.handlers = h₂.handlers →
      ∀ data : Json,
      (dispatchDecoded h₁ data).map (fun r => (r.1.handlers, r.2)) =
      (dispatchDecoded h₂ data).map (fun r => (r.1.handlers, r.2)) := by
    intro h₁ h₂ hh data
    cases hev : webhookEventFromDict data with
    | error e =>
        rw [dispatchDecoded_of_fromDict_err h₁ hev, dispatchDecoded_of_fromDict_err h₂ hev]
    | ok event =>
        rw [dispatchDecoded_of_fromDict_ok h₁ hev, dispatchDecoded_of_fromDict_ok h₂ hev, hh]
        cases dictContainsJson h₂.handlers event.event_type with
        | error e => rfl
        | ok copt =>
            cases copt with
            | none => simp [Except.map, hh]
            | some cb =>
                cases hcb : cb event with
                | error e => simp [hcb]
                | ok u => simp [hcb, Except.map, hh]
  cases p with
  | pstr s =>
      cases hj : json_loads s with
      | error em =>
          rw [process_webhook_pstr_decode_err _ hj, process_webhook_pstr_decode_err _ hj]
      | ok j =>
          rw [process_webhook_pstr_decoded _ hj, process_webhook_pstr_decoded _ hj]
          exact hdis ⟨sec₁, reg⟩ ⟨sec₂, reg⟩ rfl j
  | pobj fields => exact hdis ⟨sec₁, reg⟩ ⟨sec₂, reg⟩ rfl (.obj fields)

/-- C3 (amended): a decode failure in `process_webhook` raises exactly
`ValueError` (the code's realisation of the spec's `InvalidPayloadError`)
carrying the decode error message; a mapping — decoded or passed directly —
never makes the parse phase raise; but a string decoding to a non-mapping
JSON value makes the field-mapping step raise `AttributeError`, so the
decode error is not the only error of the parsing component. -/
theorem process_webhook_parse_errors (h : WebhookHandlerState Callback) (s : List Char)
    (em : List Char) (j : Json) (fields : List (List Char × Json)) :
    (json_loads s = .error em →
      process_webhook h (.pstr s) = .error (.valueError ("Invalid JSON payload: ".toList ++ em))) ∧
    (∃ ev, webhookEventFromDict (.obj fields) = .ok ev) ∧
    (json_loads s = .ok j → (∀ fs, j ≠ .obj fs) →
      process_webhook h (.pstr s)
        = .error (.attributeError (pyTypeName j ++ " object has no attribute get".toList))) := by
  refine ⟨fun hj => process_webhook_pstr_decode_err h hj, ⟨eventOfFields fields, rfl⟩, ?_⟩
  intro hj hnobj
  rw [process_webhook_pstr_decoded h hj]
  cases j with
  | obj fs => exact absurd rfl (hnobj fs)
  | null => rfl
  | bool b => rfl
  | num n => rfl
  | str s₂ => rfl
  | arr l => rfl

/-- Witness for the amended C3: the malformed payload `"x"` produces the
wrapped decode error. -/
theorem process_webhook_parse_errors_witness :
    process_webhook (⟨none, []⟩ : WebhookHandlerState Callback) (.pstr "x".toList)
      = .error (.valueError ("Invalid JSON payload: ".toList ++ "Expecting value".toList)) :=
  (process_webhook_parse_errors (⟨none, []⟩ : WebhookHandlerState Callback) "x".toList
    "Expecting value".toList .null []).1 (by rfl)

/-- C3 counterexample: the string payload `"42"` decodes successfully (to the
integer `42`), and the parsing step then raises `AttributeError` — not the
decode error — refuting that the decode error is the only error the parsing
component raises. -/
theorem process_webhook_nonmapping_attribute_error :
    process_webhook (⟨none, []⟩ : WebhookHandlerState Callback) (.pstr "42".toList)
        = .error (.attributeError ("int".toList ++ " object has no attribute get".toList)) ∧
    ∀ m, PyErr.attributeError ("int".toList ++ " object has no attribute get".toList)
        ≠ PyErr.valueError m :=
  ⟨by rfl, fun m hm => PyErr.noConfusion hm⟩

end Laneful
